import Mathlib

/-!
Verification development for the Vyasify quiz bot (`src/main.py`).

The Python source is shallowly embedded: numeric values that Python stores
as floats are modelled as rationals (`ℚ`), machine timestamps as rationals,
per-session dictionaries as a `Session` structure, and the uuid token
generator as a monotone counter (all that the code relies on is that a
freshly minted token differs from every earlier one).  Fields of the
session dictionary that only feed log messages or Telegram text
(`last_action`, `last_activity`, `last_late_msg_ts`, `poll_message_id`,
`start`, `name`, `current_q_index`) are omitted: no control-flow branch
that mutates counters, marks, index or tokens depends on them.  The
`active` flag models presence of the session in the global `sessions`
dict (`sessions.pop` on finish makes every later handler a no-op, exactly
like `sessions.get(user_id)` returning `None`).
-/

namespace VyasifyQuiz

/-! ### Configuration constants (the defaults in `src/main.py`, env unset) -/

def DEFAULT_QUESTION_TIME : ℤ := 20

def DEFAULT_MARKS_PER_QUESTION : ℚ := 2

/-- `DEFAULT_NEGATIVE_RATIO` in the source. -/
def DEFAULT_NEGATIVE_RATIO_VAL : ℚ := 1 / 3

def QUIZ_SWITCH_HOUR : ℕ := 17

def GRACE_SECONDS : ℚ := 1 / 2

def MAX_USER_QUEUE_SIZE : ℕ := 500

def MAX_ADMIN_QUEUE_SIZE : ℕ := 200

/-! ### `parse_correct_option` (src/main.py lines 168-174)

Python receives the cell as `None` or a string; `not opt` is true for both
`None` and `""`.  `.strip().upper()` is modelled as `String.trim` followed
by mapping `Char.toUpper` over the characters; the length-1 check and the
`opt < "A" or opt > "D"` comparison on a one-character string are exactly
a character-range check. -/

/-- Python `str.strip()` on the character list: drop leading and trailing
whitespace. -/
def py_strip (cs : List Char) : List Char :=
  ((cs.dropWhile Char.isWhitespace).reverse.dropWhile Char.isWhitespace).reverse

def parse_correct_option (opt : Option String) : Option ℕ :=
  match opt with
  | none => none
  | some o =>
    if o.data = [] then none
    else
      match (py_strip o.data).map Char.toUpper with
      | [c] => if 'A' ≤ c ∧ c ≤ 'D' then some (c.toNat - 65) else none
      | _ => none

/-! ### Raw rows and `normalize_sheet_rows` (src/main.py lines 186-223)

A numeric cell reaches the code as: absent (`r.get` returns the default),
present but not parseable by `float` (the `except` branch), or a parsed
finite value.  `RawNum` models those three cases; Python string-to-float
parsing itself is external input handling. A row's `date` is `none` when
the cell is absent or `datetime.strptime` fails (the row is dropped), and
`some d` (a day number) when it parses. -/

inductive RawNum where
  | missing
  | bad
  | val (q : ℚ)
deriving Repr, DecidableEq

structure RawRow where
  date : Option ℤ
  time : RawNum
  marks : RawNum
  negative_ratio : RawNum
  question : String
  option_a : String
  option_b : String
  option_c : String
  option_d : String
  correct_option : Option String
  explanation : String
deriving Repr, DecidableEq

structure NormRow where
  date : ℤ
  question : String
  option_a : String
  option_b : String
  option_c : String
  option_d : String
  correct_option : Option String
  explanation : String
  time_limit : ℤ
  marks : ℚ
  neg_ratio : ℚ
  invalid_reason : Bool
deriving Repr, DecidableEq, Inhabited

/-- Python `int()` truncation toward zero on a rational. -/
def py_trunc (q : ℚ) : ℤ :=
  if 0 ≤ q then ⌊q⌋ else ⌈q⌉

/-- `_time_limit`: `max(1, int(float(cell)))`, default on a missing cell is
`float(DEFAULT_QUESTION_TIME)` flowing through the same expression; a parse
failure assigns `DEFAULT_QUESTION_TIME` directly. -/
def norm_time_limit : RawNum → ℤ
  | .missing => max 1 (py_trunc (DEFAULT_QUESTION_TIME : ℚ))
  | .bad => DEFAULT_QUESTION_TIME
  | .val v => max 1 (py_trunc v)

/-- `_marks`: parsed value, replaced by the default when negative or
unparseable.  A missing cell parses to the default, which is nonnegative,
so the `< 0` replacement leaves it unchanged. -/
def norm_marks : RawNum → ℚ
  | .missing => DEFAULT_MARKS_PER_QUESTION
  | .bad => DEFAULT_MARKS_PER_QUESTION
  | .val v => if v < 0 then DEFAULT_MARKS_PER_QUESTION else v

/-- `_neg_ratio`: parsed value, replaced by the default when outside
`[0,1]` or unparseable.  A missing cell parses to the default, which lies
inside the range check, so it passes through unchanged. -/
def norm_neg_ratio : RawNum → ℚ
  | .missing => DEFAULT_NEGATIVE_RATIO_VAL
  | .bad => DEFAULT_NEGATIVE_RATIO_VAL
  | .val v => if v < 0 ∨ 1 < v then DEFAULT_NEGATIVE_RATIO_VAL else v

def normalize_row (r : RawRow) : Option NormRow :=
  match r.date with
  | none => none
  | some d =>
    some
      { date := d
        question := r.question
        option_a := r.option_a
        option_b := r.option_b
        option_c := r.option_c
        option_d := r.option_d
        correct_option := r.correct_option
        explanation := r.explanation
        time_limit := norm_time_limit r.time
        marks := norm_marks r.marks
        neg_ratio := norm_neg_ratio r.negative_ratio
        invalid_reason := (parse_correct_option r.correct_option).isNone }

def normalize_sheet_rows (rows : List RawRow) : List NormRow :=
  rows.filterMap normalize_row

/-- Modelled from the spec's words, for the refinement direction of the
normalization claim: the correct-option field is exactly one letter A-D,
case-insensitive after trimming. -/
def spec_one_letter_AD (opt : Option String) : Bool :=
  match opt with
  | none => false
  | some o =>
    match py_strip o.data with
    | [c] => decide ('A' ≤ c.toUpper ∧ c.toUpper ≤ 'D')
    | _ => false

/-! ### Effective-date resolution (src/main.py lines 226-238)

Dates are modelled as integer day numbers; the wall-clock time of day as
minutes since midnight (the code compares `now.time()` against
`dtime(hour=QUIZ_SWITCH_HOUR, minute=0)`).  `sorted({...})` over the set
of row dates is `dedup` followed by a sort. -/

def effective_date_for_now (today : ℤ) (now_minutes : ℕ) : ℤ :=
  if now_minutes < QUIZ_SWITCH_HOUR * 60 then today - 1 else today

def get_effective_quiz_date (row_dates : List ℤ) (today : ℤ) (now_minutes : ℕ) : Option ℤ :=
  let eff := effective_date_for_now today now_minutes
  let available := row_dates.dedup.insertionSort (fun a b => a ≤ b)
  let valid := available.filter (fun d => d ≤ eff)
  valid.getLast?

/-! ### The per-user session state machine (src/main.py lines 494-950)

`Session` mirrors the session dict built in `start_quiz`.  `next_token`
models the uuid generator: `uuid.uuid4().hex` mints a value different from
every other minted token, which the counter captures.  `active` models
membership in the global `sessions` dict.  Each handler below is the whole
sequential effect of the corresponding Python coroutine, including the
chained `advance_question` / `send_question` calls it makes; under the
bot's default sequential update processing the only interleaving task, the
deadline timer, always passes through `question_timeout_by_handle`,
modelled as its own event.

The `deadlocked` flag records the one place where a handler does NOT run
to completion: a genuine (non-stale, non-early) timeout awaits
`advance_question` (line 635) while still holding `s["lock"]` (acquired
at line 603), and `advance_question` re-acquires the same non-reentrant
`asyncio.Lock` (line 938).  The stuck task holds the lock forever, so the
mutations made before that await are the handler's entire effect and every
later handler blocks on the orphaned lock without mutating the session.
The answer and skip handlers are not affected: they call
`advance_question` / `send_question` only after releasing the lock
(lines 860 and 929-930). -/

structure Session where
  questions : List NormRow
  index : ℕ
  score : ℕ
  attempted : ℕ
  wrong : ℕ
  marks : ℚ
  skipped_user : ℕ
  skipped_timeout : ℕ
  skipped_invalid : ℕ
  transitioned : Bool
  timeout_token : Option ℕ
  q_deadline : Option ℚ
  in_question : Bool
  skip_disabled : Bool
  explanations : List ℕ
  next_token : ℕ
  active : Bool
  deadlocked : Bool
deriving Repr, DecidableEq

/-- `_cancel_timeout_handle` (lines 551-559): cancels the scheduled timer
and clears both handle and token. -/
def cancel_timeout_handle (s : Session) : Session :=
  { s with timeout_token := none }

/-- `record_explanation` (lines 409-420): appends unless an entry with the
same question number is already present; only the `q_no` key matters here. -/
def record_explanation (s : Session) (q_no : ℕ) : Session :=
  if q_no ∈ s.explanations then s
  else { s with explanations := s.explanations ++ [q_no] }

/-- The validity checks of `send_question` (lines 655-732): `_invalid_reason`
set by normalization, an unparseable correct option, fewer than two
non-empty options, or an out-of-range / empty correct option. -/
def present_invalid (q : NormRow) : Bool :=
  q.invalid_reason ||
    match parse_correct_option q.correct_option with
    | none => true
    | some cidx =>
      let raw := [q.option_a, q.option_b, q.option_c, q.option_d]
      let opts := raw.filter (fun o => !(py_strip o.data).isEmpty)
      if opts.length < 2 then true
      else if 4 ≤ cidx then true
      else (py_strip (raw.getD cidx "").data).isEmpty

/-- `send_question` (lines 640-783).  Reaching the end of the question list
calls `finish_quiz`, which pops the session (`active := false`).  An invalid
question records an auto-skip and advances (the inlined `advance_question`
always takes its increment branch because `transitioned` was just reset),
recursing to the next question.  A valid question is delivered and armed:
`deadline = now + time_limit`, a fresh token, a scheduled timer. -/
def send_question (now : ℚ) (s : Session) : Session :=
  if h : s.questions.length ≤ s.index then
    { s with active := false }
  else
    let q := s.questions.getD s.index default
    let s1 := { s with transitioned := false }
    if present_invalid q then
      send_question now
        { s1 with
          explanations := s1.explanations ++ [s1.index + 1]
          skipped_invalid := s1.skipped_invalid + 1
          transitioned := true
          index := s1.index + 1
          in_question := false }
    else
      { s1 with
        in_question := true
        q_deadline := some (now + (q.time_limit : ℚ))
        timeout_token := some s1.next_token
        next_token := s1.next_token + 1 }
termination_by s.questions.length - s.index
decreasing_by simp_wf; omega

/-- `advance_question` (lines 933-950): idempotency-guarded single
increment, then next question or finish. -/
def advance_question (now : ℚ) (s : Session) : Session :=
  if s.transitioned then s
  else
    send_question now
      { s with transitioned := true, index := s.index + 1, in_question := false }

/-- `_treat_late_answer_as_timeout_in_lock` (lines 562-592): source name
has a leading underscore. -/
def treat_late_answer_as_timeout_in_lock (s : Session) : Session :=
  let s1 := { s with timeout_token := none }
  let s2 := record_explanation
    { s1 with skipped_timeout := s1.skipped_timeout + 1 } (s1.index + 1)
  { s2 with in_question := false, transitioned := true, index := s2.index + 1 }

/-- The `if deadline and now > deadline + GRACE_SECONDS` test of
`handle_answer` (lines 814-815): Python's `deadline` is falsy when the
stored value is `None` or `0`. -/
def py_deadline_late (dl : Option ℚ) (now : ℚ) : Bool :=
  match dl with
  | none => false
  | some d => decide (d ≠ 0) && decide (d + GRACE_SECONDS < now)

/-- The comparison `selected == correct_idx` guarded by the two
`is not None` checks (line 846). -/
def answer_is_correct (sel : Option ℕ) (cidx : Option ℕ) : Bool :=
  match sel, cidx with
  | some si, some ci => si = ci
  | _, _ => false

/-- `handle_answer` (lines 786-860).  A missing session or an already
transitioned question is a no-op on the modelled state (the code only
sends a rate-limited notice).  A late answer is resolved as a timeout and
the next question is sent; otherwise the answer is marked. -/
def handle_answer (sel : Option ℕ) (now : ℚ) (s : Session) : Session :=
  if s.active = false then s
  else if s.transitioned then s
  else if py_deadline_late s.q_deadline now then
    send_question now (treat_late_answer_as_timeout_in_lock (cancel_timeout_handle s))
  else
    let s1 := cancel_timeout_handle s
    let q := s1.questions.getD s1.index default
    let s2 := { s1 with attempted := s1.attempted + 1, in_question := false }
    let s3 :=
      if answer_is_correct sel (parse_correct_option q.correct_option) then
        { s2 with score := s2.score + 1, marks := s2.marks + q.marks }
      else
        { s2 with wrong := s2.wrong + 1, marks := s2.marks - q.marks * q.neg_ratio }
    advance_question now (record_explanation s3 (s3.index + 1))

/-- `handle_skip_callback` (lines 863-930): no-op when already transitioned
or skip already disabled; otherwise resolves the question as a user skip
and sends the next question. -/
def handle_skip_callback (now : ℚ) (s : Session) : Session :=
  if s.active = false then s
  else if s.transitioned then s
  else if s.skip_disabled then s
  else
    let s1 := cancel_timeout_handle s
    let s2 :=
      { s1 with
        explanations := s1.explanations ++ [s1.index + 1]
        skipped_user := s1.skipped_user + 1
        transitioned := true
        index := s1.index + 1
        in_question := false
        skip_disabled := true }
    send_question now s2

/-- `question_timeout_by_handle` (lines 595-637).  A stale token (checked
before and again inside the lock; the two checks collapse on the atomic
model) or an already transitioned question is a no-op.  An early fire
(scheduler jitter beyond 1 ms) reschedules the same token and leaves the
state unchanged.  Otherwise the handler bumps `skipped_timeout`, records
the explanation, clears `in_question` and the token — and then, still
holding the session lock, awaits `advance_question` (line 635), which
blocks forever re-acquiring that same non-reentrant lock (line 938):
`transitioned` is never set, the index is never incremented, and the
session is frozen, which `deadlocked := true` records.  The mutations
below are exactly those the source performs before the stuck await. -/
def question_timeout_by_handle (q_index tok : ℕ) (now : ℚ) (s : Session) : Session :=
  if s.active = false then s
  else if s.timeout_token ≠ some tok then s
  else if s.transitioned then s
  else if now < s.q_deadline.getD 0 - 1 / 1000 then s
  else
    let s1 := record_explanation
      { s with skipped_timeout := s.skipped_timeout + 1 } (q_index + 1)
    { s1 with in_question := false, timeout_token := none, deadlocked := true }

/-- The fresh session dict built by `start_quiz` (lines 507-533). -/
def init_session (qs : List NormRow) : Session :=
  { questions := qs
    index := 0
    score := 0
    attempted := 0
    wrong := 0
    marks := 0
    skipped_user := 0
    skipped_timeout := 0
    skipped_invalid := 0
    transitioned := false
    timeout_token := none
    q_deadline := none
    in_question := false
    skip_disabled := false
    explanations := []
    next_token := 0
    active := true
    deadlocked := false }

/-- `start_quiz` (lines 494-545): create the session and present the first
question. -/
def start_quiz (qs : List NormRow) (now : ℚ) : Session :=
  send_question now (init_session qs)

/-- The three externally triggered events that can touch a live session. -/
inductive QuizEvent where
  | answer (sel : Option ℕ) (now : ℚ)
  | skip (now : ℚ)
  | timeout (q_index tok : ℕ) (now : ℚ)
deriving Repr, DecidableEq

/-- One event step.  On a deadlocked session the lock is held forever by
the stuck timeout task, so every later handler blocks acquiring it and
never mutates the session (the timeout handler's pre-lock checks do
complete, but only on a stale token — a no-op — since the stored token was
cleared before the deadlock). -/
def apply_event (e : QuizEvent) (s : Session) : Session :=
  if s.deadlocked then s
  else
    match e with
    | .answer sel now => handle_answer sel now s
    | .skip now => handle_skip_callback now s
    | .timeout qi tok now => question_timeout_by_handle qi tok now s

def QuizStep (s t : Session) : Prop :=
  ∃ e : QuizEvent, t = apply_event e s

/-- Session states reachable from a quiz start by any interleaving of
answers, skips and timer callbacks. -/
def ReachableSession (qs : List NormRow) (now0 : ℚ) (s : Session) : Prop :=
  Relation.ReflTransGen QuizStep (start_quiz qs now0) s

/-- `attempted + skipped(user) + skipped(timeout) + skipped(invalid)`,
the quantity checked by `_session_integrity_check` (lines 1162-1170) and
reported by `finish_quiz`. -/
def resolvedSum (s : Session) : ℕ :=
  s.attempted + s.skipped_user + s.skipped_timeout + s.skipped_invalid

/-- The invariant every reachable session state satisfies.  In a
non-deadlocked state the resolution counters account exactly for the
questions passed; in a deadlocked state the timeout-skip was recorded but
the index increment never happened, so the sum sits exactly one above the
frozen index, which stays strictly inside the list.  The index never
overruns the question list, a live non-deadlocked state awaiting input
sits strictly inside the list, and a finished (popped) state sits exactly
at the end and is never deadlocked. -/
def PostInv (s : Session) : Prop :=
  (s.deadlocked = false → resolvedSum s = s.index) ∧
  (s.deadlocked = true → resolvedSum s = s.index + 1 ∧ s.index < s.questions.length) ∧
  s.index ≤ s.questions.length ∧
  (s.active = true → s.deadlocked = false →
    s.transitioned = false ∧ s.index < s.questions.length) ∧
  (s.active = false → s.index = s.questions.length ∧ s.deadlocked = false)

/-! ### Send queues (src/main.py lines 386-404) -/

structure SendJob where
  chat_id : ℤ
  session_user_id : Option ℤ
  priority_admin : Bool
deriving Repr, DecidableEq

structure QueueState where
  queue_admin : List SendJob
  queue_user : List SendJob
  rejections_admin : ℕ
  rejections_user : ℕ
deriving Repr, DecidableEq

/-- `enqueue_send_poll`: `put_nowait` on a bounded `asyncio.Queue` raises
`QueueFull` exactly when the queue already holds `maxsize` items; the
handler then bumps the matching rejection counter and reports failure. -/
def enqueue_send_poll (st : QueueState) (job : SendJob) : QueueState × Bool :=
  if job.priority_admin then
    if st.queue_admin.length < MAX_ADMIN_QUEUE_SIZE then
      ({ st with queue_admin := st.queue_admin ++ [job] }, true)
    else
      ({ st with rejections_admin := st.rejections_admin + 1 }, false)
  else
    if st.queue_user.length < MAX_USER_QUEUE_SIZE then
      ({ st with queue_user := st.queue_user ++ [job] }, true)
    else
      ({ st with rejections_user := st.rejections_user + 1 }, false)

/-! ### Daily scores and the leaderboard (src/main.py lines 956-986, 1041-1047) -/

structure DailyScore where
  name : String
  score : ℚ
  time : ℕ
  quiz_date_key : ℤ
  skipped_user : ℕ
  skipped_timeout : ℕ
  skipped_invalid : ℕ
deriving Repr, DecidableEq, Inhabited

/-- Python's `round(x, 2)` modelled as rounding `x * 100` to an integer. -/
def round2 (x : ℚ) : ℚ :=
  (round (x * 100) : ℤ) / 100

/-- The ordering key `lambda x: (-x["score"], x["time"])` compared the way
Python compares tuples: lexicographically. -/
def score_key_le (a b : DailyScore) : Prop :=
  -a.score < -b.score ∨ (-a.score = -b.score ∧ a.time ≤ b.time)

instance : DecidableRel score_key_le := fun a b =>
  inferInstanceAs (Decidable (_ ∨ _ ∧ _))

/-- `sorted(daily_scores.values(), key=lambda x: (-x["score"], x["time"]))[:10]`
(line 981 and line 1046); Python's stable sort is modelled by the stable
`insertionSort`. -/
def ranked_leaderboard (l : List DailyScore) : List DailyScore :=
  (l.insertionSort score_key_le).take 10

/-- The score-recording step of `finish_quiz` (lines 968-979): one record
per user, written only on the first completion.  The store is the
`daily_scores` dict, modelled as an association list searched by
`List.lookup`. -/
def finish_quiz_record (store : List (ℕ × DailyScore)) (user_id : ℕ) (s : Session)
    (name : String) (time_taken : ℕ) (session_quiz_key : ℤ) : List (ℕ × DailyScore) :=
  if (store.lookup user_id).isSome then store
  else
    (user_id,
      { name := name
        score := round2 s.marks
        time := time_taken
        quiz_date_key := session_quiz_key
        skipped_user := s.skipped_user
        skipped_timeout := s.skipped_timeout
        skipped_invalid := s.skipped_invalid }) :: store

/-! ### Concrete fixtures used to exercise the definitions -/

/-- A concrete valid question row. -/
def sample_question : NormRow :=
  { date := 0
    question := "q"
    option_a := "w"
    option_b := "x"
    option_c := "y"
    option_d := "z"
    correct_option := some "A"
    explanation := "e"
    time_limit := 20
    marks := 2
    neg_ratio := 1 / 3
    invalid_reason := false }

/-- A concrete live session sitting on `sample_question` with an armed
timer (token 0 minted, next fresh token 1, deadline 20). -/
def sample_session : Session :=
  { questions := [sample_question, sample_question]
    index := 0
    score := 0
    attempted := 0
    wrong := 0
    marks := 0
    skipped_user := 0
    skipped_timeout := 0
    skipped_invalid := 0
    transitioned := false
    timeout_token := some 0
    q_deadline := some 20
    in_question := true
    skip_disabled := false
    explanations := []
    next_token := 1
    active := true
    deadlocked := false }

/-! ## Theorems -/

theorem parse_correct_option_none_iff (opt : Option String) :
    parse_correct_option opt = none ↔ spec_one_letter_AD opt = false := by
  cases opt with
  | none => simp [parse_correct_option, spec_one_letter_AD]
  | some o =>
    by_cases ho : o.data = []
    · have hs : py_strip o.data = [] := by rw [ho]; rfl
      simp only [parse_correct_option, spec_one_letter_AD, if_pos ho, hs]
    · simp only [parse_correct_option, spec_one_letter_AD, if_neg ho]
      cases hl : py_strip o.data with
      | nil => simp
      | cons c t =>
        cases t with
        | nil =>
          simp only [List.map_cons, List.map_nil]
          by_cases hc : 'A' ≤ c.toUpper ∧ c.toUpper ≤ 'D'
          · simp [hc]
          · simp [hc]
        | cons c' t' => simp

theorem getLast?_mem {α : Type} {l : List α} {y : α} (h : l.getLast? = some y) : y ∈ l := by
  induction l with
  | nil => simp at h
  | cons a t ih =>
    cases t with
    | nil =>
      simp only [List.getLast?_singleton, Option.some.injEq] at h
      simp [h]
    | cons b u =>
      rw [List.getLast?_cons_cons] at h
      exact List.mem_cons_of_mem a (ih h)

theorem sorted_le_getLast {l : List ℤ} (hs : l.Sorted (fun a b => a ≤ b)) {x y : ℤ}
    (hx : x ∈ l) (hy : l.getLast? = some y) : x ≤ y := by
  induction l with
  | nil => cases hx
  | cons a t ih =>
    cases t with
    | nil =>
      simp only [List.getLast?_singleton, Option.some.injEq] at hy
      simp only [List.mem_singleton] at hx
      simp [hx, hy]
    | cons b u =>
      rw [List.getLast?_cons_cons] at hy
      rcases List.mem_cons.1 hx with rfl | hx'
      · exact (List.sorted_cons.1 hs).1 y (getLast?_mem hy)
      · exact ih (List.sorted_cons.1 hs).2 hx' hy

theorem getLast?_eq_none_iff_nil {α : Type} {l : List α} : l.getLast? = none ↔ l = [] := by
  induction l with
  | nil => simp
  | cons a t ih =>
    cases t with
    | nil => simp [List.getLast?_singleton]
    | cons b u =>
      rw [List.getLast?_cons_cons, ih]
      simp

/-- `get_effective_quiz_date` returns exactly the maximum available date
not after the effective date, and `none` exactly when no date qualifies. -/
theorem get_effective_quiz_date_spec (row_dates : List ℤ) (today : ℤ) (now_minutes : ℕ) :
    (∀ x, get_effective_quiz_date row_dates today now_minutes = some x →
      x ∈ row_dates ∧ x ≤ effective_date_for_now today now_minutes ∧
        ∀ d ∈ row_dates, d ≤ effective_date_for_now today now_minutes → d ≤ x) ∧
    (get_effective_quiz_date row_dates today now_minutes = none ↔
      ∀ d ∈ row_dates, ¬d ≤ effective_date_for_now today now_minutes) := by
  set eff := effective_date_for_now today now_minutes with heff
  set available := row_dates.dedup.insertionSort (fun a b => a ≤ b) with havail
  set valid := available.filter (fun d => d ≤ eff) with hvalid
  have hmem_avail : ∀ d : ℤ, d ∈ available ↔ d ∈ row_dates := by
    intro d
    rw [havail, (List.perm_insertionSort (fun a b => a ≤ b) row_dates.dedup).mem_iff]
    exact List.mem_dedup
  have hsorted : available.Sorted (fun a b => a ≤ b) :=
    List.sorted_insertionSort (fun a b => a ≤ b) row_dates.dedup
  have hsorted_valid : valid.Sorted (fun a b => a ≤ b) := hsorted.filter _
  have hmem_valid : ∀ d : ℤ, d ∈ valid ↔ d ∈ row_dates ∧ d ≤ eff := by
    intro d
    rw [hvalid, List.mem_filter]
    simp [hmem_avail]
  have hget : get_effective_quiz_date row_dates today now_minutes = valid.getLast? := rfl
  constructor
  · intro x hx
    rw [hget] at hx
    have hxv : x ∈ valid := getLast?_mem hx
    have hxc := (hmem_valid x).1 hxv
    refine ⟨hxc.1, hxc.2, ?_⟩
    intro d hd hdeff
    exact sorted_le_getLast hsorted_valid ((hmem_valid d).2 ⟨hd, hdeff⟩) hx
  · rw [hget, getLast?_eq_none_iff_nil]
    constructor
    · intro hnil d hd hdeff
      have hmem : d ∈ valid := (hmem_valid d).2 ⟨hd, hdeff⟩
      rw [hnil] at hmem
      cases hmem
    · intro hall
      by_contra hne
      obtain ⟨d, hd⟩ := List.exists_mem_of_ne_nil valid hne
      have hdc := (hmem_valid d).1 hd
      exact hall d hdc.1 hdc.2

/-- `send_question` only ever touches `skipped_invalid`, `index`,
`transitioned`, `in_question`, the deadline, the token fields,
`explanations` and `active`; every scoring counter survives it. -/
theorem send_question_preserves (now : ℚ) (s : Session) :
    (send_question now s).questions = s.questions ∧
    (send_question now s).attempted = s.attempted ∧
    (send_question now s).wrong = s.wrong ∧
    (send_question now s).score = s.score ∧
    (send_question now s).marks = s.marks ∧
    (send_question now s).skipped_user = s.skipped_user ∧
    (send_question now s).skipped_timeout = s.skipped_timeout ∧
    (send_question now s).skip_disabled = s.skip_disabled := by
  induction s using send_question.induct now with
  | case1 s h =>
    rw [send_question]
    simp [h]
  | case2 s h q s1 hq ih =>
    rw [send_question]
    simp only [dif_neg h]
    rw [if_pos hq]
    simpa using ih
  | case3 s h q hq =>
    rw [send_question]
    simp only [dif_neg h]
    rw [if_neg hq]
    simp

/-- `send_question` establishes the reachability invariant from a live,
non-deadlocked state whose counters already account for its index. -/
theorem send_question_inv (now : ℚ) (s : Session) (ha : s.active = true)
    (hdl : s.deadlocked = false) (hsum : resolvedSum s = s.index)
    (hle : s.index ≤ s.questions.length) : PostInv (send_question now s) := by
  induction s using send_question.induct now with
  | case1 s h =>
    rw [send_question, dif_pos h]
    refine ⟨fun _ => hsum, ?_, hle, ?_, ?_⟩
    · intro hc
      have hc' : s.deadlocked = true := hc
      rw [hdl] at hc'
      cases hc'
    · intro hc
      have hc' : (false : Bool) = true := hc
      cases hc'
    · intro _
      refine ⟨?_, hdl⟩
      show s.index = s.questions.length
      omega
  | case2 s h q s1 hq ih =>
    have hsum' : s.attempted + s.skipped_user + s.skipped_timeout + s.skipped_invalid =
        s.index := hsum
    rw [send_question, dif_neg h, if_pos hq]
    refine ih ha hdl ?_ ?_
    · show s.attempted + s.skipped_user + s.skipped_timeout + (s.skipped_invalid + 1) =
        s.index + 1
      omega
    · show s.index + 1 ≤ s.questions.length
      omega
  | case3 s h q hq =>
    rw [send_question, dif_neg h, if_neg hq]
    refine ⟨fun _ => hsum, ?_, hle, ?_, ?_⟩
    · intro hc
      have hc' : s.deadlocked = true := hc
      rw [hdl] at hc'
      cases hc'
    · intro _ _
      refine ⟨rfl, ?_⟩
      show s.index < s.questions.length
      omega
    · intro hc
      have hc' : s.active = false := hc
      rw [ha] at hc'
      cases hc'

theorem advance_question_preserves (now : ℚ) (s : Session) :
    (advance_question now s).questions = s.questions ∧
    (advance_question now s).attempted = s.attempted ∧
    (advance_question now s).wrong = s.wrong ∧
    (advance_question now s).score = s.score ∧
    (advance_question now s).marks = s.marks ∧
    (advance_question now s).skipped_user = s.skipped_user ∧
    (advance_question now s).skipped_timeout = s.skipped_timeout ∧
    (advance_question now s).skip_disabled = s.skip_disabled := by
  unfold advance_question
  split
  · simp
  · have hp := send_question_preserves now
      { s with transitioned := true, index := s.index + 1, in_question := false }
    simpa using hp

theorem advance_question_inv (now : ℚ) (s : Session) (ha : s.active = true)
    (ht : s.transitioned = false) (hdl : s.deadlocked = false)
    (hsum : resolvedSum s = s.index + 1)
    (hlt : s.index < s.questions.length) : PostInv (advance_question now s) := by
  unfold advance_question
  rw [if_neg (by simp [ht])]
  refine send_question_inv now _ ha hdl ?_ ?_
  · exact hsum
  · show s.index + 1 ≤ s.questions.length
    omega

/-- `record_explanation` changes the explanation list only. -/
theorem record_explanation_eq (s : Session) (n : ℕ) :
    ∃ e, record_explanation s n = { s with explanations := e } := by
  unfold record_explanation
  split
  · exact ⟨s.explanations, rfl⟩
  · exact ⟨s.explanations ++ [n], rfl⟩

/-- The in-lock late-answer resolution in explicit record form. -/
theorem treat_late_fields (s : Session) :
    ∃ e, treat_late_answer_as_timeout_in_lock s =
      { s with timeout_token := none
               skipped_timeout := s.skipped_timeout + 1
               explanations := e
               in_question := false
               transitioned := true
               index := s.index + 1 } := by
  by_cases hmem : s.index + 1 ∈ s.explanations
  · exact ⟨s.explanations,
      by simp [treat_late_answer_as_timeout_in_lock, record_explanation, hmem]⟩
  · exact ⟨s.explanations ++ [s.index + 1],
      by simp [treat_late_answer_as_timeout_in_lock, record_explanation, hmem]⟩

/-- Resolving a question (counter already bumped, explanation recorded) and
advancing preserves the invariant. -/
theorem advance_record_inv (now : ℚ) (s' : Session) (n : ℕ) (ha : s'.active = true)
    (ht : s'.transitioned = false) (hdl : s'.deadlocked = false)
    (hsum : resolvedSum s' = s'.index + 1)
    (hlt : s'.index < s'.questions.length) :
    PostInv (advance_question now (record_explanation s' n)) := by
  obtain ⟨e, he⟩ := record_explanation_eq s' n
  rw [he]
  exact advance_question_inv now _ ha ht hdl hsum hlt

theorem handle_answer_inv (sel : Option ℕ) (now : ℚ) (s : Session)
    (hdl : s.deadlocked = false) (h : PostInv s) :
    PostInv (handle_answer sel now s) := by
  obtain ⟨h1, h2, hle, hlive, hdone⟩ := h
  have hsum' : s.attempted + s.skipped_user + s.skipped_timeout + s.skipped_invalid =
      s.index := h1 hdl
  unfold handle_answer
  split
  · exact ⟨h1, h2, hle, hlive, hdone⟩
  · rename_i hact
    have ha : s.active = true := by
      cases hb : s.active
      · exact absurd hb hact
      · rfl
    split
    · exact ⟨h1, h2, hle, hlive, hdone⟩
    · rename_i htr
      have hlt : s.index < s.questions.length := (hlive ha hdl).2
      split
      · obtain ⟨e, he⟩ := treat_late_fields (cancel_timeout_handle s)
        rw [he]
        refine send_question_inv now _ ha hdl ?_ ?_
        · show s.attempted + s.skipped_user + (s.skipped_timeout + 1) + s.skipped_invalid =
            s.index + 1
          omega
        · show s.index + 1 ≤ s.questions.length
          omega
      · dsimp only
        split
        · refine advance_record_inv now _ _ ha ((hlive ha hdl).1) hdl ?_ hlt
          show (s.attempted + 1) + s.skipped_user + s.skipped_timeout + s.skipped_invalid =
            s.index + 1
          omega
        · refine advance_record_inv now _ _ ha ((hlive ha hdl).1) hdl ?_ hlt
          show (s.attempted + 1) + s.skipped_user + s.skipped_timeout + s.skipped_invalid =
            s.index + 1
          omega

theorem handle_skip_inv (now : ℚ) (s : Session) (hdl : s.deadlocked = false)
    (h : PostInv s) : PostInv (handle_skip_callback now s) := by
  obtain ⟨h1, h2, hle, hlive, hdone⟩ := h
  have hsum' : s.attempted + s.skipped_user + s.skipped_timeout + s.skipped_invalid =
      s.index := h1 hdl
  unfold handle_skip_callback
  split
  · exact ⟨h1, h2, hle, hlive, hdone⟩
  · rename_i hact
    have ha : s.active = true := by
      cases hb : s.active
      · exact absurd hb hact
      · rfl
    split
    · exact ⟨h1, h2, hle, hlive, hdone⟩
    · split
      · exact ⟨h1, h2, hle, hlive, hdone⟩
      · have hlt : s.index < s.questions.length := (hlive ha hdl).2
        refine send_question_inv now _ ha hdl ?_ ?_
        · show s.attempted + (s.skipped_user + 1) + s.skipped_timeout + s.skipped_invalid =
            s.index + 1
          omega
        · show s.index + 1 ≤ s.questions.length
          omega

theorem question_timeout_inv (q_index tok : ℕ) (now : ℚ) (s : Session)
    (hdl : s.deadlocked = false) (h : PostInv s) :
    PostInv (question_timeout_by_handle q_index tok now s) := by
  obtain ⟨h1, h2, hle, hlive, hdone⟩ := h
  have hsum' : s.attempted + s.skipped_user + s.skipped_timeout + s.skipped_invalid =
      s.index := h1 hdl
  unfold question_timeout_by_handle
  split
  · exact ⟨h1, h2, hle, hlive, hdone⟩
  · rename_i hact
    have ha : s.active = true := by
      cases hb : s.active
      · exact absurd hb hact
      · rfl
    split
    · exact ⟨h1, h2, hle, hlive, hdone⟩
    · split
      · exact ⟨h1, h2, hle, hlive, hdone⟩
      · split
        · exact ⟨h1, h2, hle, hlive, hdone⟩
        · have hlt : s.index < s.questions.length := (hlive ha hdl).2
          dsimp only
          obtain ⟨e, he⟩ := record_explanation_eq
            { s with skipped_timeout := s.skipped_timeout + 1 } (q_index + 1)
          rw [he]
          refine ⟨?_, ?_, hle, ?_, ?_⟩
          · intro hc
            have hc' : (true : Bool) = false := hc
            cases hc'
          · intro _
            refine ⟨?_, hlt⟩
            show s.attempted + s.skipped_user + (s.skipped_timeout + 1) + s.skipped_invalid =
              s.index + 1
            omega
          · intro _ hc
            have hc' : (true : Bool) = false := hc
            cases hc'
          · intro hc
            have hc' : s.active = false := hc
            rw [ha] at hc'
            cases hc'

theorem apply_event_inv (e : QuizEvent) (s : Session) (h : PostInv s) :
    PostInv (apply_event e s) := by
  unfold apply_event
  by_cases hdl : s.deadlocked = true
  · rw [if_pos hdl]
    exact h
  · have hdl' : s.deadlocked = false := by
      cases hb : s.deadlocked
      · rfl
      · exact absurd hb hdl
    rw [if_neg hdl]
    cases e with
    | answer sel now => exact handle_answer_inv sel now s hdl' h
    | skip now => exact handle_skip_inv now s hdl' h
    | timeout qi tok now => exact question_timeout_inv qi tok now s hdl' h

/-- Every reachable session state satisfies the accounting invariant. -/
theorem reachable_inv (qs : List NormRow) (now0 : ℚ) (s : Session)
    (h : ReachableSession qs now0 s) : PostInv s := by
  induction h with
  | refl => exact send_question_inv now0 (init_session qs) rfl rfl rfl (Nat.zero_le _)
  | tail _ hbc ih =>
    obtain ⟨e, rfl⟩ := hbc
    exact apply_event_inv e _ ih

/-- Scoring-relevant fields of `advance_question ∘ record_explanation`. -/
theorem advance_record_fields (now : ℚ) (s' : Session) (n : ℕ) :
    (advance_question now (record_explanation s' n)).marks = s'.marks ∧
    (advance_question now (record_explanation s' n)).attempted = s'.attempted ∧
    (advance_question now (record_explanation s' n)).wrong = s'.wrong ∧
    (advance_question now (record_explanation s' n)).score = s'.score ∧
    (advance_question now (record_explanation s' n)).skipped_user = s'.skipped_user ∧
    (advance_question now (record_explanation s' n)).skipped_timeout = s'.skipped_timeout := by
  obtain ⟨e, he⟩ := record_explanation_eq s' n
  rw [he]
  have h := advance_question_preserves now { s' with explanations := e }
  exact ⟨h.2.2.2.2.1, h.2.1, h.2.2.1, h.2.2.2.1, h.2.2.2.2.2.1, h.2.2.2.2.2.2.1⟩

/-- C1: in every reachable session state, `attempted + skipped_user +
skipped_timeout + skipped_invalid` never exceeds the total number of
questions (in a state frozen by the timeout deadlock the sum sits at
`index + 1` with the index still strictly inside the list), and once the
quiz is finished (the index has reached the total) the sum equals the
total exactly — a deadlocked session never reaches the total. -/
theorem c1_resolution_accounting (qs : List NormRow) (now0 : ℚ) (s : Session)
    (h : ReachableSession qs now0 s) :
    resolvedSum s ≤ s.questions.length ∧
    (s.questions.length ≤ s.index → resolvedSum s = s.questions.length) := by
  obtain ⟨h1, h2, hle, hlive, hdone⟩ := reachable_inv qs now0 s h
  cases hdl : s.deadlocked with
  | false =>
    have hs := h1 hdl
    constructor
    · omega
    · intro hf
      omega
  | true =>
    obtain ⟨hs, hlt⟩ := h2 hdl
    constructor
    · omega
    · intro hf
      omega

theorem c1_resolution_accounting_witness :
    resolvedSum (start_quiz [sample_question] 0) ≤
      (start_quiz [sample_question] 0).questions.length ∧
    ((start_quiz [sample_question] 0).questions.length ≤ (start_quiz [sample_question] 0).index →
      resolvedSum (start_quiz [sample_question] 0) =
        (start_quiz [sample_question] 0).questions.length) :=
  c1_resolution_accounting [sample_question] 0 (start_quiz [sample_question] 0)
    Relation.ReflTransGen.refl

/-- C2: the source violates the exactly-once index discipline on the
timeout path.  A genuine timeout on a live question records its terminal
event — `skipped_timeout` rises by one and the token is cleared — but the
session index is NEVER incremented: `question_timeout_by_handle` awaits
`advance_question` (src/main.py line 635) while still holding the session
lock acquired at line 603, and `advance_question` re-acquires the same
non-reentrant `asyncio.Lock` at line 938, so the handler deadlocks with
`transitioned` still false and the session frozen; no later answer, skip
or timeout event ever completes on it.  Evaluated at the concrete failing
input: `sample_session` (live on question 0, token 0 armed, deadline 20)
with the timer firing on time at 20. -/
theorem c2_timeout_never_advances :
    (question_timeout_by_handle 0 0 20 sample_session).skipped_timeout =
      sample_session.skipped_timeout + 1 ∧
    (question_timeout_by_handle 0 0 20 sample_session).timeout_token = none ∧
    (question_timeout_by_handle 0 0 20 sample_session).index = sample_session.index ∧
    (question_timeout_by_handle 0 0 20 sample_session).transitioned = false ∧
    (question_timeout_by_handle 0 0 20 sample_session).deadlocked = true ∧
    ∀ ev : QuizEvent,
      apply_event ev (question_timeout_by_handle 0 0 20 sample_session) =
        question_timeout_by_handle 0 0 20 sample_session := by
  have hfire : question_timeout_by_handle 0 0 20 sample_session =
      { record_explanation
          { sample_session with skipped_timeout := sample_session.skipped_timeout + 1 }
          (0 + 1) with
        in_question := false, timeout_token := none, deadlocked := true } := by
    unfold question_timeout_by_handle
    rw [if_neg (by decide), if_neg (by decide), if_neg (by decide),
      if_neg (by norm_num [sample_session])]
  obtain ⟨e, he⟩ := record_explanation_eq
    { sample_session with skipped_timeout := sample_session.skipped_timeout + 1 } (0 + 1)
  rw [hfire, he]
  refine ⟨rfl, rfl, rfl, rfl, rfl, ?_⟩
  intro ev
  unfold apply_event
  rw [if_pos rfl]

/-- C3: marking rules.  For an in-time answer to a valid question: a
correct selection adds exactly the question's marks (and bumps `attempted`
and `score`); a differing selection subtracts exactly
`marks * negative_ratio` and bumps `wrong` (and `attempted`); a user skip
changes marks by zero and bumps only `skipped_user`; a firing timeout
changes marks by zero and bumps only `skipped_timeout`; neither touches
`attempted` or `wrong`. -/
theorem c3_marking_rules (s : Session) (now : ℚ) (c : ℕ)
    (ha : s.active = true) (ht : s.transitioned = false)
    (hin : py_deadline_late s.q_deadline now = false)
    (hidx : s.index < s.questions.length)
    (hc : parse_correct_option (s.questions.getD s.index default).correct_option = some c) :
    ((handle_answer (some c) now s).marks =
        s.marks + (s.questions.getD s.index default).marks ∧
      (handle_answer (some c) now s).attempted = s.attempted + 1 ∧
      (handle_answer (some c) now s).score = s.score + 1 ∧
      (handle_answer (some c) now s).wrong = s.wrong) ∧
    (∀ i : ℕ, i ≠ c →
      (handle_answer (some i) now s).marks =
        s.marks - (s.questions.getD s.index default).marks *
          (s.questions.getD s.index default).neg_ratio ∧
      (handle_answer (some i) now s).attempted = s.attempted + 1 ∧
      (handle_answer (some i) now s).wrong = s.wrong + 1) ∧
    (s.skip_disabled = false →
      (handle_skip_callback now s).marks = s.marks ∧
      (handle_skip_callback now s).skipped_user = s.skipped_user + 1 ∧
      (handle_skip_callback now s).attempted = s.attempted ∧
      (handle_skip_callback now s).wrong = s.wrong ∧
      (handle_skip_callback now s).skipped_timeout = s.skipped_timeout) ∧
    (∀ tok : ℕ, s.timeout_token = some tok →
      ¬now < s.q_deadline.getD 0 - 1 / 1000 →
      (question_timeout_by_handle s.index tok now s).marks = s.marks ∧
      (question_timeout_by_handle s.index tok now s).skipped_timeout =
        s.skipped_timeout + 1 ∧
      (question_timeout_by_handle s.index tok now s).attempted = s.attempted ∧
      (question_timeout_by_handle s.index tok now s).wrong = s.wrong ∧
      (question_timeout_by_handle s.index tok now s).skipped_user = s.skipped_user) := by
  have hact : ¬(s.active = false) := by simp [ha]
  have htr : ¬(s.transitioned = true) := by simp [ht]
  have hlate : ¬(py_deadline_late s.q_deadline now = true) := by simp [hin]
  refine ⟨?_, ?_, ?_, ?_⟩
  · have hcorr : answer_is_correct (some c)
        (parse_correct_option (s.questions.getD s.index default).correct_option) = true := by
      rw [hc]
      simp [answer_is_correct]
    unfold handle_answer cancel_timeout_handle
    rw [if_neg hact, if_neg htr, if_neg hlate]
    dsimp only
    rw [if_pos hcorr]
    exact ⟨(advance_record_fields now _ _).1, (advance_record_fields now _ _).2.1,
      (advance_record_fields now _ _).2.2.2.1, (advance_record_fields now _ _).2.2.1⟩
  · intro i hi
    have hwr : answer_is_correct (some i)
        (parse_correct_option (s.questions.getD s.index default).correct_option) = false := by
      rw [hc]
      simp [answer_is_correct, hi]
    unfold handle_answer cancel_timeout_handle
    rw [if_neg hact, if_neg htr, if_neg hlate]
    dsimp only
    rw [if_neg (fun hcontra => by rw [hwr] at hcontra; cases hcontra)]
    exact ⟨(advance_record_fields now _ _).1, (advance_record_fields now _ _).2.1,
      (advance_record_fields now _ _).2.2.1⟩
  · intro hsd
    have hsd' : ¬(s.skip_disabled = true) := by simp [hsd]
    unfold handle_skip_callback cancel_timeout_handle
    rw [if_neg hact, if_neg htr, if_neg hsd']
    dsimp only
    exact ⟨(send_question_preserves now _).2.2.2.2.1,
      (send_question_preserves now _).2.2.2.2.2.1,
      (send_question_preserves now _).2.1,
      (send_question_preserves now _).2.2.1,
      (send_question_preserves now _).2.2.2.2.2.2.1⟩
  · intro tok htok hne
    have htok' : ¬(s.timeout_token ≠ some tok) := by simp [htok]
    unfold question_timeout_by_handle
    rw [if_neg hact, if_neg htok', if_neg htr, if_neg hne]
    dsimp only
    obtain ⟨e, he⟩ := record_explanation_eq
      { s with skipped_timeout := s.skipped_timeout + 1 } (s.index + 1)
    rw [he]
    exact ⟨rfl, rfl, rfl, rfl, rfl⟩

theorem c3_marking_rules_witness :
    (handle_answer (some 0) 1 sample_session).marks =
      sample_session.marks + (sample_session.questions.getD sample_session.index default).marks ∧
    (handle_answer (some 1) 1 sample_session).wrong = sample_session.wrong + 1 ∧
    (handle_skip_callback 1 sample_session).skipped_user = sample_session.skipped_user + 1 ∧
    (handle_skip_callback 1 sample_session).marks = sample_session.marks ∧
    (question_timeout_by_handle sample_session.index 0 20 sample_session).skipped_timeout =
      sample_session.skipped_timeout + 1 :=
  ⟨(c3_marking_rules sample_session 1 0 rfl rfl
      (by norm_num [sample_session, py_deadline_late, GRACE_SECONDS]) (by decide)
      (by decide)).1.1,
   ((c3_marking_rules sample_session 1 0 rfl rfl
      (by norm_num [sample_session, py_deadline_late, GRACE_SECONDS]) (by decide)
      (by decide)).2.1 1 (by decide)).2.2,
   ((c3_marking_rules sample_session 1 0 rfl rfl
      (by norm_num [sample_session, py_deadline_late, GRACE_SECONDS]) (by decide)
      (by decide)).2.2.1 rfl).2.1,
   ((c3_marking_rules sample_session 1 0 rfl rfl
      (by norm_num [sample_session, py_deadline_late, GRACE_SECONDS]) (by decide)
      (by decide)).2.2.1 rfl).1,
   ((c3_marking_rules sample_session 20 0 rfl rfl
      (by norm_num [sample_session, py_deadline_late, GRACE_SECONDS]) (by decide)
      (by decide)).2.2.2 0 rfl
      (by norm_num [sample_session])).2.1⟩

/-- C6: an answer arriving while the question is not yet transitioned but
after `deadline + grace` is resolved as a timeout: the handler is exactly
the in-lock late-answer timeout resolution (timer token cleared,
`skipped_timeout` bumped by one, marks / `attempted` / `wrong` untouched,
`transitioned` set, index advanced by one) followed by presenting the next
question, and the final state keeps the bumped timeout-skip counter with
marks, `attempted` and `wrong` unchanged. -/
theorem c6_late_answer_as_timeout (s : Session) (sel : Option ℕ) (now d : ℚ)
    (ha : s.active = true) (ht : s.transitioned = false)
    (hd : s.q_deadline = some d) (hd0 : d ≠ 0) (hlate : d + GRACE_SECONDS < now) :
    handle_answer sel now s =
      send_question now (treat_late_answer_as_timeout_in_lock (cancel_timeout_handle s)) ∧
    (treat_late_answer_as_timeout_in_lock (cancel_timeout_handle s)).timeout_token = none ∧
    (treat_late_answer_as_timeout_in_lock (cancel_timeout_handle s)).skipped_timeout =
      s.skipped_timeout + 1 ∧
    (treat_late_answer_as_timeout_in_lock (cancel_timeout_handle s)).attempted = s.attempted ∧
    (treat_late_answer_as_timeout_in_lock (cancel_timeout_handle s)).wrong = s.wrong ∧
    (treat_late_answer_as_timeout_in_lock (cancel_timeout_handle s)).marks = s.marks ∧
    (treat_late_answer_as_timeout_in_lock (cancel_timeout_handle s)).transitioned = true ∧
    (treat_late_answer_as_timeout_in_lock (cancel_timeout_handle s)).index = s.index + 1 ∧
    (handle_answer sel now s).skipped_timeout = s.skipped_timeout + 1 ∧
    (handle_answer sel now s).marks = s.marks ∧
    (handle_answer sel now s).attempted = s.attempted ∧
    (handle_answer sel now s).wrong = s.wrong := by
  have hact : ¬(s.active = false) := by simp [ha]
  have htr : ¬(s.transitioned = true) := by simp [ht]
  have hlateT : py_deadline_late s.q_deadline now = true := by
    rw [hd]
    simp [py_deadline_late, hd0, hlate]
  have hdec : handle_answer sel now s =
      send_question now (treat_late_answer_as_timeout_in_lock (cancel_timeout_handle s)) := by
    unfold handle_answer
    rw [if_neg hact, if_neg htr, if_pos hlateT]
  obtain ⟨e, he⟩ := treat_late_fields (cancel_timeout_handle s)
  refine ⟨hdec, ?_, ?_, ?_, ?_, ?_, ?_, ?_, ?_, ?_, ?_, ?_⟩
  · rw [he]
  · rw [he]
    rfl
  · rw [he]
    rfl
  · rw [he]
    rfl
  · rw [he]
    rfl
  · rw [he]
  · rw [he]
    rfl
  · rw [hdec, he]
    exact (send_question_preserves now _).2.2.2.2.2.2.1
  · rw [hdec, he]
    exact (send_question_preserves now _).2.2.2.2.1
  · rw [hdec, he]
    exact (send_question_preserves now _).2.1
  · rw [hdec, he]
    exact (send_question_preserves now _).2.2.1

theorem c6_late_answer_as_timeout_witness :
    (handle_answer (some 0) 30 sample_session).skipped_timeout =
      sample_session.skipped_timeout + 1 ∧
    (handle_answer (some 0) 30 sample_session).marks = sample_session.marks ∧
    (handle_answer (some 0) 30 sample_session).attempted = sample_session.attempted :=
  ⟨(c6_late_answer_as_timeout sample_session (some 0) 30 20 rfl rfl rfl (by norm_num)
      (by norm_num [GRACE_SECONDS])).2.2.2.2.2.2.2.2.1,
   (c6_late_answer_as_timeout sample_session (some 0) 30 20 rfl rfl rfl (by norm_num)
      (by norm_num [GRACE_SECONDS])).2.2.2.2.2.2.2.2.2.1,
   (c6_late_answer_as_timeout sample_session (some 0) 30 20 rfl rfl rfl (by norm_num)
      (by norm_num [GRACE_SECONDS])).2.2.2.2.2.2.2.2.2.2.1⟩

/-- C10: an in-time poll answer whose selected-option list is empty is
counted as an incorrect attempted answer: `attempted` and `wrong` each rise
by one, marks fall by `marks * negative_ratio`, and the correct counter is
untouched — exactly as for a wrong option. -/
theorem c10_empty_answer_counts_wrong (s : Session) (now : ℚ)
    (ha : s.active = true) (ht : s.transitioned = false)
    (hin : py_deadline_late s.q_deadline now = false)
    (hidx : s.index < s.questions.length) :
    (handle_answer none now s).attempted = s.attempted + 1 ∧
    (handle_answer none now s).wrong = s.wrong + 1 ∧
    (handle_answer none now s).marks =
      s.marks - (s.questions.getD s.index default).marks *
        (s.questions.getD s.index default).neg_ratio ∧
    (handle_answer none now s).score = s.score := by
  have hact : ¬(s.active = false) := by simp [ha]
  have htr : ¬(s.transitioned = true) := by simp [ht]
  have hlate : ¬(py_deadline_late s.q_deadline now = true) := by simp [hin]
  unfold handle_answer cancel_timeout_handle
  rw [if_neg hact, if_neg htr, if_neg hlate]
  dsimp only
  rw [if_neg (by simp [answer_is_correct])]
  exact ⟨(advance_record_fields now _ _).2.1, (advance_record_fields now _ _).2.2.1,
    (advance_record_fields now _ _).1, (advance_record_fields now _ _).2.2.2.1⟩

theorem c10_empty_answer_counts_wrong_witness :
    (handle_answer none 1 sample_session).attempted = sample_session.attempted + 1 ∧
    (handle_answer none 1 sample_session).wrong = sample_session.wrong + 1 ∧
    (handle_answer none 1 sample_session).marks =
      sample_session.marks - (sample_session.questions.getD sample_session.index default).marks *
        (sample_session.questions.getD sample_session.index default).neg_ratio :=
  ⟨(c10_empty_answer_counts_wrong sample_session 1 rfl rfl
      (by norm_num [sample_session, py_deadline_late, GRACE_SECONDS]) (by decide)).1,
   (c10_empty_answer_counts_wrong sample_session 1 rfl rfl
      (by norm_num [sample_session, py_deadline_late, GRACE_SECONDS]) (by decide)).2.1,
   (c10_empty_answer_counts_wrong sample_session 1 rfl rfl
      (by norm_num [sample_session, py_deadline_late, GRACE_SECONDS]) (by decide)).2.2.1⟩

/-- C4: date-key resolution.  Before the cutoff hour the resolved date is
the most recent available date strictly before today; at or after the
cutoff it is today's date when available, and otherwise the most recent
available date on or before today; when no available date qualifies the
result is `none`.  Concretely, with cutoff hour 17 and available dates
`{D-1, D}`, resolving at `D` 09:00 yields `D-1` and at `D` 18:00 yields
`D`. -/
theorem c4_date_key_resolution :
    (∀ (dates : List ℤ) (today : ℤ) (mins : ℕ) (x : ℤ), mins < QUIZ_SWITCH_HOUR * 60 →
      get_effective_quiz_date dates today mins = some x →
      x ∈ dates ∧ x < today ∧ ∀ d ∈ dates, d < today → d ≤ x) ∧
    (∀ (dates : List ℤ) (today : ℤ) (mins : ℕ) (x : ℤ), QUIZ_SWITCH_HOUR * 60 ≤ mins →
      get_effective_quiz_date dates today mins = some x →
      x ∈ dates ∧ x ≤ today ∧ ∀ d ∈ dates, d ≤ today → d ≤ x) ∧
    (∀ (dates : List ℤ) (today : ℤ) (mins : ℕ), QUIZ_SWITCH_HOUR * 60 ≤ mins →
      today ∈ dates → get_effective_quiz_date dates today mins = some today) ∧
    (∀ (dates : List ℤ) (today : ℤ) (mins : ℕ),
      get_effective_quiz_date dates today mins = none ↔
        ∀ d ∈ dates, ¬d ≤ effective_date_for_now today mins) ∧
    (∀ D : ℤ, get_effective_quiz_date [D - 1, D] D 540 = some (D - 1) ∧
      get_effective_quiz_date [D - 1, D] D 1080 = some D) := by
  have heff_lt : ∀ (today : ℤ) (mins : ℕ), mins < QUIZ_SWITCH_HOUR * 60 →
      effective_date_for_now today mins = today - 1 := by
    intro today mins h
    unfold effective_date_for_now
    rw [if_pos h]
  have heff_ge : ∀ (today : ℤ) (mins : ℕ), QUIZ_SWITCH_HOUR * 60 ≤ mins →
      effective_date_for_now today mins = today := by
    intro today mins h
    unfold effective_date_for_now
    rw [if_neg (by omega)]
  have hbefore : ∀ (dates : List ℤ) (today : ℤ) (mins : ℕ) (x : ℤ),
      mins < QUIZ_SWITCH_HOUR * 60 →
      get_effective_quiz_date dates today mins = some x →
      x ∈ dates ∧ x < today ∧ ∀ d ∈ dates, d < today → d ≤ x := by
    intro dates today mins x hm hx
    obtain ⟨hmem, hle, hmax⟩ := (get_effective_quiz_date_spec dates today mins).1 x hx
    rw [heff_lt today mins hm] at hle hmax
    exact ⟨hmem, by omega, fun d hd hdlt => hmax d hd (by omega)⟩
  have hafter : ∀ (dates : List ℤ) (today : ℤ) (mins : ℕ) (x : ℤ),
      QUIZ_SWITCH_HOUR * 60 ≤ mins →
      get_effective_quiz_date dates today mins = some x →
      x ∈ dates ∧ x ≤ today ∧ ∀ d ∈ dates, d ≤ today → d ≤ x := by
    intro dates today mins x hm hx
    obtain ⟨hmem, hle, hmax⟩ := (get_effective_quiz_date_spec dates today mins).1 x hx
    rw [heff_ge today mins hm] at hle hmax
    exact ⟨hmem, hle, hmax⟩
  have hnone : ∀ (dates : List ℤ) (today : ℤ) (mins : ℕ),
      get_effective_quiz_date dates today mins = none ↔
        ∀ d ∈ dates, ¬d ≤ effective_date_for_now today mins :=
    fun dates today mins => (get_effective_quiz_date_spec dates today mins).2
  have htoday : ∀ (dates : List ℤ) (today : ℤ) (mins : ℕ), QUIZ_SWITCH_HOUR * 60 ≤ mins →
      today ∈ dates → get_effective_quiz_date dates today mins = some today := by
    intro dates today mins hm hmem
    cases hres : get_effective_quiz_date dates today mins with
    | none =>
      exfalso
      have hall := (hnone dates today mins).1 hres today hmem
      rw [heff_ge today mins hm] at hall
      omega
    | some x =>
      obtain ⟨hxmem, hxle, hxmax⟩ := hafter dates today mins x hm hres
      have hx : x = today := le_antisymm hxle (hxmax today hmem (le_refl today))
      rw [hx]
  refine ⟨hbefore, hafter, htoday, hnone, ?_⟩
  intro D
  constructor
  · cases hres : get_effective_quiz_date [D - 1, D] D 540 with
    | none =>
      exfalso
      have hall := (hnone [D - 1, D] D 540).1 hres (D - 1) (by simp)
      rw [heff_lt D 540 (by decide)] at hall
      omega
    | some x =>
      obtain ⟨hmem, hlt, hmax⟩ := hbefore [D - 1, D] D 540 x (by decide) hres
      have : x = D - 1 := by
        rcases (by simpa using hmem : x = D - 1 ∨ x = D) with h | h
        · exact h
        · omega
      rw [this]
  · exact htoday [D - 1, D] D 1080 (by decide) (by simp)

theorem c4_date_key_resolution_witness :
    get_effective_quiz_date [(-1 : ℤ), 0] 0 540 = some (-1) ∧
    get_effective_quiz_date [(-1 : ℤ), 0] 0 1080 = some 0 ∧
    get_effective_quiz_date ([] : List ℤ) 0 1080 = none := by
  refine ⟨?_, ?_, ?_⟩
  · have h := (c4_date_key_resolution.2.2.2.2 0).1
    simpa using h
  · have h := (c4_date_key_resolution.2.2.2.2 0).2
    simpa using h
  · exact (c4_date_key_resolution.2.2.2.1 [] 0 1080).2 (by simp)

/-- C5: row normalization.  Every normalized row (a raw row whose date
parsed) has a time limit of at least 1, marks at least 0, a negative ratio
inside `[0,1]`, and carries the invalid flag exactly when its
correct-option field is not exactly one letter A-D after trimming,
case-insensitively. -/
theorem c5_row_normalization (rows : List RawRow) (nr : NormRow)
    (h : nr ∈ normalize_sheet_rows rows) :
    1 ≤ nr.time_limit ∧ 0 ≤ nr.marks ∧ 0 ≤ nr.neg_ratio ∧ nr.neg_ratio ≤ 1 ∧
    (nr.invalid_reason = true ↔ spec_one_letter_AD nr.correct_option = false) := by
  obtain ⟨r, hr, hnr⟩ := List.mem_filterMap.1 h
  unfold normalize_row at hnr
  cases hd : r.date with
  | none =>
    rw [hd] at hnr
    cases hnr
  | some d =>
    rw [hd] at hnr
    injection hnr with hnr
    subst hnr
    refine ⟨?_, ?_, ?_, ?_, ?_⟩
    · show 1 ≤ norm_time_limit r.time
      cases r.time with
      | missing => exact le_max_left _ _
      | bad => decide
      | val v => exact le_max_left _ _
    · show 0 ≤ norm_marks r.marks
      cases r.marks with
      | missing => norm_num [norm_marks, DEFAULT_MARKS_PER_QUESTION]
      | bad => norm_num [norm_marks, DEFAULT_MARKS_PER_QUESTION]
      | val v =>
        simp only [norm_marks]
        split
        · norm_num [DEFAULT_MARKS_PER_QUESTION]
        · rename_i hv
          exact not_lt.mp hv
    · show 0 ≤ norm_neg_ratio r.negative_ratio
      cases r.negative_ratio with
      | missing => norm_num [norm_neg_ratio, DEFAULT_NEGATIVE_RATIO_VAL]
      | bad => norm_num [norm_neg_ratio, DEFAULT_NEGATIVE_RATIO_VAL]
      | val v =>
        simp only [norm_neg_ratio]
        split
        · norm_num [DEFAULT_NEGATIVE_RATIO_VAL]
        · rename_i hv
          push_neg at hv
          exact hv.1
    · show norm_neg_ratio r.negative_ratio ≤ 1
      cases r.negative_ratio with
      | missing => norm_num [norm_neg_ratio, DEFAULT_NEGATIVE_RATIO_VAL]
      | bad => norm_num [norm_neg_ratio, DEFAULT_NEGATIVE_RATIO_VAL]
      | val v =>
        simp only [norm_neg_ratio]
        split
        · norm_num [DEFAULT_NEGATIVE_RATIO_VAL]
        · rename_i hv
          push_neg at hv
          exact hv.2
    · show (parse_correct_option r.correct_option).isNone = true ↔
        spec_one_letter_AD r.correct_option = false
      rw [Option.isNone_iff_eq_none]
      exact parse_correct_option_none_iff r.correct_option

theorem c5_row_normalization_witness :
    1 ≤ (NormRow.mk 7 "q" "w" "x" "y" "z" (some " c ") "e" 2 2 0 false).time_limit ∧
    0 ≤ (NormRow.mk 7 "q" "w" "x" "y" "z" (some " c ") "e" 2 2 0 false).marks ∧
    0 ≤ (NormRow.mk 7 "q" "w" "x" "y" "z" (some " c ") "e" 2 2 0 false).neg_ratio ∧
    (NormRow.mk 7 "q" "w" "x" "y" "z" (some " c ") "e" 2 2 0 false).neg_ratio ≤ 1 ∧
    ((NormRow.mk 7 "q" "w" "x" "y" "z" (some " c ") "e" 2 2 0 false).invalid_reason = true ↔
      spec_one_letter_AD
        (NormRow.mk 7 "q" "w" "x" "y" "z" (some " c ") "e" 2 2 0 false).correct_option = false) :=
  c5_row_normalization
    [RawRow.mk (some 7) (RawNum.val 2) (RawNum.val (-3)) (RawNum.val 0) "q" "w" "x" "y" "z"
      (some " c ") "e"]
    (NormRow.mk 7 "q" "w" "x" "y" "z" (some " c ") "e" 2 2 0 false)
    (by decide)

/-- C7: bounded-queue rejection.  Enqueuing into a full queue returns
failure, bumps exactly the matching rejection counter and leaves both
queue contents unchanged; with room, it returns success and appends the
job to the matching queue, leaving the rejection counters unchanged. -/
theorem c7_enqueue_bounded (st : QueueState) (job : SendJob) :
    (job.priority_admin = true → MAX_ADMIN_QUEUE_SIZE ≤ st.queue_admin.length →
      enqueue_send_poll st job =
        ({ st with rejections_admin := st.rejections_admin + 1 }, false)) ∧
    (job.priority_admin = true → st.queue_admin.length < MAX_ADMIN_QUEUE_SIZE →
      enqueue_send_poll st job = ({ st with queue_admin := st.queue_admin ++ [job] }, true)) ∧
    (job.priority_admin = false → MAX_USER_QUEUE_SIZE ≤ st.queue_user.length →
      enqueue_send_poll st job =
        ({ st with rejections_user := st.rejections_user + 1 }, false)) ∧
    (job.priority_admin = false → st.queue_user.length < MAX_USER_QUEUE_SIZE →
      enqueue_send_poll st job = ({ st with queue_user := st.queue_user ++ [job] }, true)) := by
  refine ⟨?_, ?_, ?_, ?_⟩
  · intro hp hfull
    unfold enqueue_send_poll
    rw [if_pos hp, if_neg (by omega)]
  · intro hp hroom
    unfold enqueue_send_poll
    rw [if_pos hp, if_pos hroom]
  · intro hp hfull
    unfold enqueue_send_poll
    rw [if_neg (by simp [hp]), if_neg (by omega)]
  · intro hp hroom
    unfold enqueue_send_poll
    rw [if_neg (by simp [hp]), if_pos hroom]

theorem c7_enqueue_bounded_witness :
    enqueue_send_poll
        (QueueState.mk (List.replicate 200 (SendJob.mk 9 none true)) [] 0 0)
        (SendJob.mk 9 none true) =
      ({ QueueState.mk (List.replicate 200 (SendJob.mk 9 none true)) [] 0 0 with
          rejections_admin := 1 }, false) ∧
    enqueue_send_poll (QueueState.mk [] [] 0 0) (SendJob.mk 9 none false) =
      ({ QueueState.mk [] [] 0 0 with queue_user := [SendJob.mk 9 none false] }, true) :=
  ⟨(c7_enqueue_bounded (QueueState.mk (List.replicate 200 (SendJob.mk 9 none true)) [] 0 0)
      (SendJob.mk 9 none true)).1 rfl (by rw [List.length_replicate]; exact le_refl 200),
   (c7_enqueue_bounded (QueueState.mk [] [] 0 0) (SendJob.mk 9 none false)).2.2.2 rfl
      (by simp [MAX_USER_QUEUE_SIZE])⟩

instance : IsTotal DailyScore score_key_le := by
  constructor
  intro a b
  unfold score_key_le
  rcases lt_trichotomy (-a.score) (-b.score) with h | h | h
  · exact Or.inl (Or.inl h)
  · rcases Nat.le_total a.time b.time with ht | ht
    · exact Or.inl (Or.inr ⟨h, ht⟩)
    · exact Or.inr (Or.inr ⟨h.symm, ht⟩)
  · exact Or.inr (Or.inl h)

instance : IsTrans DailyScore score_key_le := by
  constructor
  intro a b c hab hbc
  unfold score_key_le at hab hbc ⊢
  rcases hab with h1 | ⟨h1, h1t⟩
  · rcases hbc with h2 | ⟨h2, h2t⟩
    · exact Or.inl (lt_trans h1 h2)
    · exact Or.inl (h2 ▸ h1)
  · rcases hbc with h2 | ⟨h2, h2t⟩
    · exact Or.inl (h1 ▸ h2)
    · exact Or.inr ⟨h1.trans h2, le_trans h1t h2t⟩

/-- C8: leaderboard ranking.  The computed ranking is sorted by
`(-score, elapsed_time)` lexicographically ascending (higher score first,
ties broken by lower elapsed time), holds at most 10 entries, every entry
comes from the input records, and on the records A(10,50), B(10,40),
C(8,20) the ranking is [B, A, C]. -/
theorem c8_leaderboard_ranking :
    (∀ l : List DailyScore,
      (ranked_leaderboard l).Sorted score_key_le ∧
      (ranked_leaderboard l).length ≤ 10 ∧
      ∀ x ∈ ranked_leaderboard l, x ∈ l) ∧
    ranked_leaderboard
        [DailyScore.mk "A" 10 50 0 0 0 0, DailyScore.mk "B" 10 40 0 0 0 0,
          DailyScore.mk "C" 8 20 0 0 0 0] =
      [DailyScore.mk "B" 10 40 0 0 0 0, DailyScore.mk "A" 10 50 0 0 0 0,
        DailyScore.mk "C" 8 20 0 0 0 0] := by
  constructor
  · intro l
    refine ⟨?_, ?_, ?_⟩
    · exact List.Pairwise.sublist (List.take_sublist 10 _)
        (List.sorted_insertionSort score_key_le l)
    · exact List.length_take_le 10 (l.insertionSort score_key_le)
    · intro x hx
      have hx' : x ∈ l.insertionSort score_key_le :=
        List.mem_of_mem_take hx
      exact (List.perm_insertionSort score_key_le l).mem_iff.1 hx'
  · unfold ranked_leaderboard
    norm_num [List.insertionSort, List.orderedInsert, score_key_le]

theorem c8_leaderboard_ranking_witness :
    (ranked_leaderboard [DailyScore.mk "A" 10 50 0 0 0 0]).Sorted score_key_le ∧
    (ranked_leaderboard [DailyScore.mk "A" 10 50 0 0 0 0]).length ≤ 10 :=
  ⟨(c8_leaderboard_ranking.1 [DailyScore.mk "A" 10 50 0 0 0 0]).1,
   (c8_leaderboard_ranking.1 [DailyScore.mk "A" 10 50 0 0 0 0]).2.1⟩

theorem lookup_none_not_mem_keys {l : List (ℕ × DailyScore)} {a : ℕ}
    (h : l.lookup a = none) : a ∉ l.map Prod.fst := by
  induction l with
  | nil => simp
  | cons p t ih =>
    obtain ⟨k, v⟩ := p
    by_cases hk : a = k
    · subst hk
      simp [List.lookup] at h
    · rw [List.lookup] at h
      rw [beq_false_of_ne hk] at h
      simp only [List.map_cons, List.mem_cons]
      intro hmem
      rcases hmem with hmem | hmem
      · exact hk hmem
      · exact ih h hmem

/-- C9: the score store records at most one entry per user: a first
completion inserts a record carrying the name, rounded marks, elapsed time
and skip breakdown, and any later completion by the same user leaves the
stored record (and the whole store) completely unchanged; distinct keys
stay distinct. -/
theorem c9_score_write_once (store : List (ℕ × DailyScore)) (user_id : ℕ) (s : Session)
    (name : String) (time_taken : ℕ) (key : ℤ) :
    (∀ e, store.lookup user_id = some e →
      finish_quiz_record store user_id s name time_taken key = store ∧
      (finish_quiz_record store user_id s name time_taken key).lookup user_id = some e) ∧
    (store.lookup user_id = none →
      (finish_quiz_record store user_id s name time_taken key).lookup user_id =
        some (DailyScore.mk name (round2 s.marks) time_taken key s.skipped_user
          s.skipped_timeout s.skipped_invalid)) ∧
    ((store.map Prod.fst).Nodup →
      ((finish_quiz_record store user_id s name time_taken key).map Prod.fst).Nodup) := by
  refine ⟨?_, ?_, ?_⟩
  · intro e he
    unfold finish_quiz_record
    rw [if_pos (by simp [he])]
    exact ⟨rfl, he⟩
  · intro hn
    unfold finish_quiz_record
    rw [if_neg (by simp [hn])]
    rw [List.lookup]
    simp
  · intro hd
    unfold finish_quiz_record
    split
    · exact hd
    · rename_i hnone
      have hn : store.lookup user_id = none := by
        cases hres : store.lookup user_id with
        | none => rfl
        | some e => rw [hres] at hnone; simp at hnone
      simp only [List.map_cons]
      exact List.Nodup.cons (lookup_none_not_mem_keys hn) hd

theorem c9_score_write_once_witness :
    (finish_quiz_record [] 42 sample_session "u" 90 7).lookup 42 =
      some (DailyScore.mk "u" (round2 sample_session.marks) 90 7 sample_session.skipped_user
        sample_session.skipped_timeout sample_session.skipped_invalid) ∧
    finish_quiz_record
        [(42, DailyScore.mk "u" 1 90 7 0 0 0)] 42 sample_session "v" 120 7 =
      [(42, DailyScore.mk "u" 1 90 7 0 0 0)] :=
  ⟨(c9_score_write_once [] 42 sample_session "u" 90 7).2.1 rfl,
   ((c9_score_write_once [(42, DailyScore.mk "u" 1 90 7 0 0 0)] 42 sample_session "v" 120 7).1
      (DailyScore.mk "u" 1 90 7 0 0 0) (by rfl)).1⟩

end VyasifyQuiz
